import Mathlib

/-!
# Verification of the SafeCity geospatial core

A shallow embedding of the geospatial clustering engine (`geoUtils`) and the
insight aggregation engine (`insightService`) of the SafeCity crime-mapping
repository, together with theorems settling the specification claims about
them.

Conventions of the embedding:
* JavaScript numbers used only in comparisons, additions, multiplications and
  divisions on coordinates and counts are modelled by `ℚ` (the source inputs
  are decimal literals, and every grid operation is exact on them).
* The transcendental haversine distance is modelled over `ℝ`.
* `Array.prototype.sort` (stable since ES2019) is modelled by
  `List.mergeSort`, which Lean proves stable.
* `new Date()` (the wall clock read by `detectHotspots` and
  `generateInsights`) is modelled by an explicit `now` parameter.
* Mutation (`cell.firs.push`, the `visited` set) is modelled by explicit
  state passing in the order the source performs it.
-/

namespace SafeCity

/-- A wall-clock timestamp as the source's `Date` objects expose it:
`getTime` (epoch milliseconds), `getDay` (0–6) and `getMonth` (0–11). -/
structure JSDate where
  getTime : Int
  getDay : Nat
  getMonth : Nat
deriving DecidableEq, Repr

/-- Modelled from the spec: the `FIR` record type lives in `src/types`, which
is not among the provided sources; §3 of the spec lists its fields (identifier,
category, calendar date, time-of-day string, latitude, longitude, area, zone,
station, optional description, two booleans). -/
structure FIR where
  id : String
  crimeType : String
  date : JSDate
  time : String
  latitude : ℚ
  longitude : ℚ
  area : String
  zone : String
  policeStation : String
  description : Option String := none
  isAccident : Bool
  isSensitiveZone : Bool
deriving DecidableEq, Repr

/-- Severity tier of a hotspot, as in `classifyBySeverity`. -/
inductive Severity where
  | low
  | medium
  | high
deriving DecidableEq, Repr

/-- Modelled from the spec: `ZONE_DENSITY_THRESHOLDS` lives in
`src/config/constants`, which is not among the provided sources; §4.3 of the
spec says severity uses two ascending externally configured thresholds
(medium, high).  Representative ascending values are fixed here; no claim
depends on the particular values. -/
structure DensityThresholds where
  medium : Nat
  high : Nat

def ZONE_DENSITY_THRESHOLDS : DensityThresholds := ⟨5, 10⟩

/-- Structure `GridCell` from `geoUtils`. -/
structure GridCell where
  id : String
  minLat : ℚ
  maxLat : ℚ
  minLng : ℚ
  maxLng : ℚ
  centerLat : ℚ
  centerLng : ℚ
  firCount : Nat
  firs : List FIR
deriving DecidableEq, Repr

/-- Structure `GridConfig` from `geoUtils`. -/
structure GridConfig where
  latGridSize : ℚ
  lngGridSize : ℚ
  minLat : ℚ
  maxLat : ℚ
  minLng : ℚ
  maxLng : ℚ
deriving DecidableEq, Repr

/-- Constant `DEFAULT_GRID_CONFIG` from `geoUtils` (Delhi, 0.05° cells). -/
def DEFAULT_GRID_CONFIG : GridConfig :=
  { latGridSize := 5/100
    lngGridSize := 5/100
    minLat := 284/10
    maxLat := 289/10
    minLng := 768/10
    maxLng := 774/10 }

/-- Structure `Hotspot` from `src/types`, with the fields `detectHotspots` fills. -/
structure Hotspot where
  zoneId : String
  zoneName : String
  centerLat : ℚ
  centerLng : ℚ
  firCount : Nat
  severity : Severity
  percentage : ℚ
  lastUpdated : JSDate
deriving DecidableEq, Repr

/-- Number of iterations of the source loop
`for (let lat = min; lat < max; lat += size)`: the smallest `k` with
`min + k * size ≥ max`, i.e. `⌈(max - min) / size⌉` (for positive `size`). -/
def steps (min max size : ℚ) : Nat := (⌈(max - min) / size⌉).toNat

/-- Latitude row count of the grid generated by `createGrid`. -/
def latSteps (config : GridConfig) : Nat :=
  steps config.minLat config.maxLat config.latGridSize

/-- Longitude column count of the grid generated by `createGrid`. -/
def lngSteps (config : GridConfig) : Nat :=
  steps config.minLng config.maxLng config.lngGridSize

/-- The cell generated by `createGrid` at row `i`, column `j`
(counter value `cellId`). -/
def mkCell (config : GridConfig) (i j cellId : Nat) : GridCell :=
  let minLat := config.minLat + i * config.latGridSize
  let maxLat := minLat + config.latGridSize
  let minLng := config.minLng + j * config.lngGridSize
  let maxLng := minLng + config.lngGridSize
  { id := "GRID_" ++ toString cellId
    minLat := minLat
    maxLat := maxLat
    minLng := minLng
    maxLng := maxLng
    centerLat := (minLat + maxLat) / 2
    centerLng := (minLng + maxLng) / 2
    firCount := 0
    firs := [] }

/-- Function `createGrid` from `geoUtils`: row-major generation of half-open cells,
stepping latitude by `latGridSize` and longitude by `lngGridSize`.  The
accumulating loop variables `lat = min + i·size`, `lng = min + j·size` are
exact in `ℚ`, and the running `cellId` counter is `i * cols + j`. -/
def createGrid (config : GridConfig) : List GridCell :=
  (List.range (latSteps config)).flatMap fun i =>
    (List.range (lngSteps config)).map fun j =>
      mkCell config i j (i * lngSteps config + j)

/-- The containment test of `assignFIRsToGrid`:
`lat ≥ cell.minLat && lat < cell.maxLat && lng ≥ cell.minLng && lng < cell.maxLng`. -/
def inCell (cell : GridCell) (fir : FIR) : Bool :=
  decide (cell.minLat ≤ fir.latitude) && decide (fir.latitude < cell.maxLat) &&
  decide (cell.minLng ≤ fir.longitude) && decide (fir.longitude < cell.maxLng)

/-- One iteration of the inner loop of `assignFIRsToGrid`: scan the cells in
order and push the record onto the first cell containing it (`break` after the
first match); records contained in no cell leave the grid unchanged. -/
def assignFIR : List GridCell → FIR → List GridCell
  | [], _ => []
  | cell :: rest, fir =>
    if inCell cell fir then
      { cell with firs := cell.firs ++ [fir], firCount := cell.firCount + 1 } :: rest
    else
      cell :: assignFIR rest fir

/-- Function `assignFIRsToGrid` from `geoUtils`: assign every record, in input order,
to its first matching cell. -/
def assignFIRsToGrid (firs : List FIR) (grid : List GridCell) : List GridCell :=
  firs.foldl assignFIR grid

/-- Function `classifyBySeverity` from `geoUtils`. -/
def classifyBySeverity (firCount : Nat) : Severity :=
  if ZONE_DENSITY_THRESHOLDS.high ≤ firCount then .high
  else if ZONE_DENSITY_THRESHOLDS.medium ≤ firCount then .medium
  else .low

/-- The hotspot built from a populated cell inside `detectHotspots`
(`zoneName` strips the `GRID_` prefix via `String.replace`, `percentage` is
`count / total × 100`, `lastUpdated` is the wall clock `new Date()`). -/
def toHotspot (totalFIRs : Nat) (now : JSDate) (cell : GridCell) : Hotspot :=
  { zoneId := cell.id
    zoneName := "Zone " ++ (cell.id.replace "GRID_" "")
    centerLat := cell.centerLat
    centerLng := cell.centerLng
    firCount := cell.firCount
    severity := classifyBySeverity cell.firCount
    percentage := (cell.firCount : ℚ) / (totalFIRs : ℚ) * 100
    lastUpdated := now }

/-- The hotspot list of `detectHotspots` before the final sort: populated
cells, in the cells' row-major generation order, converted to hotspots. -/
def hotspotsUnsorted (firs : List FIR) (config : GridConfig) (now : JSDate) :
    List Hotspot :=
  (((assignFIRsToGrid firs (createGrid config))).filter
      (fun cell => decide (0 < cell.firCount))).map
    (toHotspot firs.length now)

/-- Function `detectHotspots` from `geoUtils`: empty input short-circuits to `[]`;
otherwise grid assignment, conversion of populated cells, and a stable sort
descending by `firCount` (`(a, b) => b.firCount - a.firCount`). -/
def detectHotspots (firs : List FIR) (config : GridConfig) (now : JSDate) :
    List Hotspot :=
  if firs.length = 0 then []
  else
    (hotspotsUnsorted firs config now).mergeSort
      (fun a b => decide (b.firCount ≤ a.firCount))

/-- Function `toRad` from `geoUtils`: degrees to radians. -/
noncomputable def toRad (degrees : ℝ) : ℝ := degrees * Real.pi / 180

/-- Model of `Math.atan2 y x`, by the usual case analysis on the quadrant. -/
noncomputable def atan2 (y x : ℝ) : ℝ :=
  if 0 < x then Real.arctan (y / x)
  else if x < 0 ∧ 0 ≤ y then Real.arctan (y / x) + Real.pi
  else if x < 0 ∧ y < 0 then Real.arctan (y / x) - Real.pi
  else if x = 0 ∧ 0 < y then Real.pi / 2
  else if x = 0 ∧ y < 0 then -(Real.pi / 2)
  else 0

/-- Function `haversineDistance` from `geoUtils`: great-circle distance in kilometres,
Earth radius 6371 km. -/
noncomputable def haversineDistance (lat1 lng1 lat2 lng2 : ℝ) : ℝ :=
  let R : ℝ := 6371
  let dLat := toRad (lat2 - lat1)
  let dLng := toRad (lng2 - lng1)
  let a := Real.sin (dLat / 2) * Real.sin (dLat / 2) +
    Real.cos (toRad lat1) * Real.cos (toRad lat2) *
    Real.sin (dLng / 2) * Real.sin (dLng / 2)
  let c := 2 * atan2 (Real.sqrt a) (Real.sqrt (1 - a))
  R * c

/-- Function `findNearbyFIRs` from `geoUtils`: keep exactly the records whose
haversine distance to the centre is at most the radius (inclusive bound,
`distance <= radiusKm`). -/
noncomputable def findNearbyFIRs (firs : List FIR) (centerLat centerLng : ℝ)
    (radiusKm : ℝ) : List FIR :=
  firs.filter fun fir =>
    decide (haversineDistance centerLat centerLng
      (fir.latitude : ℝ) (fir.longitude : ℝ) ≤ radiusKm)

/-- The state threaded through the `firs.forEach` loop of `clusterFIRs`:
the clusters collected so far and the `visited` set of record ids
(a JS `Set`, modelled as the list of ids in insertion order). -/
structure ClusterState where
  clusters : List (List FIR)
  visited : List String
deriving Repr

/-- One iteration of the outer loop of `clusterFIRs`: skip a visited seed;
otherwise open a cluster with the seed, mark it, radius-search the whole
record set around the seed, and append every not-yet-visited match, marking
each as it is added.  The source's final `if (cluster.length > 0)` guard is
kept verbatim. -/
noncomputable def clusterStep (firs : List FIR) (radiusKm : ℝ)
    (st : ClusterState) (fir : FIR) : ClusterState :=
  if fir.id ∈ st.visited then st
  else
    let nearby := findNearbyFIRs firs (fir.latitude : ℝ) (fir.longitude : ℝ) radiusKm
    let acc := nearby.foldl
      (fun (acc : List FIR × List String) nearFir =>
        if nearFir.id ∈ acc.2 then acc
        else (acc.1 ++ [nearFir], acc.2 ++ [nearFir.id]))
      ([fir], st.visited ++ [fir.id])
    if 0 < acc.1.length then
      { clusters := st.clusters ++ [acc.1], visited := acc.2 }
    else
      { clusters := st.clusters, visited := acc.2 }

/-- Function `clusterFIRs` from `geoUtils`: single-level density grouping around each
unvisited seed, then a stable sort descending by cluster size. -/
noncomputable def clusterFIRs (firs : List FIR) (radiusKm : ℝ) :
    List (List FIR) :=
  ((firs.foldl (clusterStep firs radiusKm) ⟨[], []⟩).clusters).mergeSort
    (fun a b => decide (b.length ≤ a.length))

/-- The bounding box returned by `calculateBounds`. -/
structure Bounds where
  minLat : ℚ
  maxLat : ℚ
  minLng : ℚ
  maxLng : ℚ
deriving DecidableEq, Repr

/-- Function `calculateBounds` from `geoUtils`: for an empty set the
`DEFAULT_GRID_CONFIG` region; otherwise min/max folds seeded with the first
record's coordinates (the source's `forEach` revisits the first record,
which is harmless and mirrored here by folding over the whole list). -/
def calculateBounds (firs : List FIR) : Bounds :=
  match firs with
  | [] =>
    { minLat := DEFAULT_GRID_CONFIG.minLat
      maxLat := DEFAULT_GRID_CONFIG.maxLat
      minLng := DEFAULT_GRID_CONFIG.minLng
      maxLng := DEFAULT_GRID_CONFIG.maxLng }
  | first :: _ =>
    firs.foldl
      (fun b fir =>
        { minLat := min b.minLat fir.latitude
          maxLat := max b.maxLat fir.latitude
          minLng := min b.minLng fir.longitude
          maxLng := max b.maxLng fir.longitude })
      { minLat := first.latitude
        maxLat := first.latitude
        minLng := first.longitude
        maxLng := first.longitude }

/-- Function `getCenter` from `geoUtils`: `null` on an empty set, otherwise the
arithmetic mean of latitudes and longitudes. -/
def getCenter (firs : List FIR) : Option (ℚ × ℚ) :=
  if firs.length = 0 then none
  else
    some ((firs.foldl (fun s fir => s + fir.latitude) 0) / firs.length,
          (firs.foldl (fun s fir => s + fir.longitude) 0) / firs.length)

/-! ## Insight service -/

/-- JS `parseInt(s, 10)` restricted to what the insight service feeds it:
skip leading whitespace, optional sign, then leading decimal digits;
`none` models `NaN`. -/
def parseIntJS (s : String) : Option Int :=
  let cs := s.toList.dropWhile (fun c => c.isWhitespace)
  let digitsVal : List Char → Option Nat := fun l =>
    let ds := l.takeWhile (fun c => c.isDigit)
    if ds.isEmpty then none
    else some (ds.foldl (fun acc c => 10 * acc + (c.toNat - '0'.toNat)) 0)
  match cs with
  | '-' :: rest => (digitsVal rest).map fun n => -(n : Int)
  | '+' :: rest => (digitsVal rest).map fun n => (n : Int)
  | _ => (digitsVal cs).map fun n => (n : Int)

/-- Model of `parseInt(fir.time.split((':'))[0], 10)` from `getPeakHours`. -/
def parseHour (time : String) : Option Int :=
  parseIntJS ((time.splitOn ":").headD "")

/-- The hour histogram bucket value: how many records parse to hour `h`
(`hourCounts[h] || 0` for `0 ≤ h < 24`). -/
def hourCount (firs : List FIR) (h : Nat) : Nat :=
  firs.countP fun fir => decide (parseHour fir.time = some (h : Int))

/-- An `{ hour, count }` entry of `getPeakHours`. -/
structure HourCount where
  hour : Nat
  count : Nat
deriving DecidableEq, Repr

/-- A `{ day, count }` entry of `getDayWiseTrends` / `highRiskDays`. -/
structure DayCount where
  day : String
  count : Nat
deriving DecidableEq, Repr

/-- A `{ type, count }` entry of `getTopCrimeTypes`. -/
structure TypeCount where
  type : String
  count : Nat
deriving DecidableEq, Repr

/-- A `{ month, count }` entry of `getMonthlyTrends`. -/
structure MonthCount where
  month : String
  count : Nat
deriving DecidableEq, Repr

/-- An `{ area, count }` entry of `getAreaStatistics`. -/
structure AreaCount where
  area : String
  count : Nat
deriving DecidableEq, Repr

/-- Function `getPeakHours` from `insightService`: the 24 hour buckets in hour order,
stable-sorted descending by count. -/
def getPeakHours (firs : List FIR) : List HourCount :=
  ((List.range 24).map fun i => HourCount.mk i (hourCount firs i)).mergeSort
    fun a b => decide (b.count ≤ a.count)

/-- The day names of `getDayWiseTrends`, indexed by `Date.getDay`. -/
def dayNames : List String :=
  ["Sunday", "Monday", "Tuesday", "Wednesday", "Thursday", "Friday", "Saturday"]

/-- Function `getDayWiseTrends` from `insightService`: seven buckets in calendar
order. -/
def getDayWiseTrends (firs : List FIR) : List DayCount :=
  (dayNames.enum).map fun p =>
    DayCount.mk p.2 (firs.countP fun fir => decide (fir.date.getDay = p.1))

/-- The month names of `getMonthlyTrends`, indexed by `Date.getMonth`. -/
def monthNames : List String :=
  ["Jan", "Feb", "Mar", "Apr", "May", "Jun",
   "Jul", "Aug", "Sep", "Oct", "Nov", "Dec"]

/-- Function `getMonthlyTrends` from `insightService`: twelve buckets in calendar
order. -/
def getMonthlyTrends (firs : List FIR) : List MonthCount :=
  (monthNames.enum).map fun p =>
    MonthCount.mk p.2 (firs.countP fun fir => decide (fir.date.getMonth = p.1))

/-- A counting fold keyed by a string, in first-occurrence order: the model
of building `typeCounts` / `areaCounts` as a JS object and reading it back
with `Object.entries` (string keys enumerate in insertion order). -/
def countsByKey (keys : List String) : List (String × Nat) :=
  keys.foldl
    (fun acc k =>
      if acc.any (fun p => p.1 == k) then
        acc.map fun p => if p.1 == k then (p.1, p.2 + 1) else p
      else acc ++ [(k, 1)])
    []

/-- Function `getTopCrimeTypes` from `insightService` (default `limit = 10`):
entries ranked descending by count (stable), truncated. -/
def getTopCrimeTypes (firs : List FIR) (limit : Nat) : List TypeCount :=
  (((countsByKey (firs.map fun fir => fir.crimeType)).map fun p =>
      TypeCount.mk p.1 p.2).mergeSort fun a b => decide (b.count ≤ a.count)).take
    limit

/-- Function `getAreaStatistics` from `insightService`: entries ranked descending by
count (stable). -/
def getAreaStatistics (firs : List FIR) : List AreaCount :=
  ((countsByKey (firs.map fun fir => fir.area)).map fun p =>
      AreaCount.mk p.1 p.2).mergeSort fun a b => decide (b.count ≤ a.count)

/-- Function `getPredictedPeakHours` from `insightService`: the hours of the first
three peak-hour buckets. -/
def getPredictedPeakHours (firs : List FIR) : List Nat :=
  ((getPeakHours firs).take 3).map fun h => h.hour

/-- Structure `CrimeInsight` from `src/types`, with the fields `generateInsights`
fills. -/
structure CrimeInsight where
  peakHours : List HourCount
  dayWiseTrends : List DayCount
  topCrimeTypes : List TypeCount
  monthlyTrends : List MonthCount
  areaStatistics : List AreaCount
  predictedPeakHours : List Nat
  highRiskDays : List DayCount
  totalFIRs : Nat
  totalHotspots : Nat
  generatedAt : JSDate
deriving DecidableEq, Repr

/-- Method `InsightService.generateInsights`: the full insight bundle;
`avgDailyCount` is the weekly mean (`reduce(...) / 7`), `highRiskDays` the
days strictly above it, `totalHotspots` is left `0` for the caller, and
`generatedAt` is the wall clock `new Date()`. -/
def generateInsights (firs : List FIR) (now : JSDate) : CrimeInsight :=
  let dayTrends := getDayWiseTrends firs
  let avgDailyCount : ℚ :=
    ((dayTrends.foldl (fun s d => s + d.count) 0 : Nat) : ℚ) / 7
  { peakHours := getPeakHours firs
    dayWiseTrends := dayTrends
    topCrimeTypes := getTopCrimeTypes firs 10
    monthlyTrends := getMonthlyTrends firs
    areaStatistics := getAreaStatistics firs
    predictedPeakHours := getPredictedPeakHours firs
    highRiskDays :=
      (dayTrends.filter fun d => decide (avgDailyCount < (d.count : ℚ))).map
        fun d => DayCount.mk d.day d.count
    totalFIRs := firs.length
    totalHotspots := 0
    generatedAt := now }

/-! ## Properties of the distance primitive -/

theorem toRad_neg (x : ℝ) : toRad (-x) = -toRad x := by
  simp only [toRad]; ring

theorem haversine_inner_comm (x y u v : ℝ) :
    Real.sin (toRad (u - x) / 2) * Real.sin (toRad (u - x) / 2) +
      Real.cos (toRad x) * Real.cos (toRad u) *
      Real.sin (toRad (v - y) / 2) * Real.sin (toRad (v - y) / 2) =
    Real.sin (toRad (x - u) / 2) * Real.sin (toRad (x - u) / 2) +
      Real.cos (toRad u) * Real.cos (toRad x) *
      Real.sin (toRad (y - v) / 2) * Real.sin (toRad (y - v) / 2) := by
  have s1 : Real.sin (toRad (u - x) / 2) = -Real.sin (toRad (x - u) / 2) := by
    rw [show u - x = -(x - u) by ring, toRad_neg, neg_div, Real.sin_neg]
  have s2 : Real.sin (toRad (v - y) / 2) = -Real.sin (toRad (y - v) / 2) := by
    rw [show v - y = -(y - v) by ring, toRad_neg, neg_div, Real.sin_neg]
  rw [s1, s2]; ring

theorem haversineDistance_comm_aux (a b c d : ℝ) :
    haversineDistance a b c d = haversineDistance c d a b := by
  simp only [haversineDistance]
  rw [haversine_inner_comm a b c d]

theorem haversineDistance_self_aux (lat lng : ℝ) :
    haversineDistance lat lng lat lng = 0 := by
  simp only [haversineDistance, sub_self]
  have h0 : toRad 0 = 0 := by simp [toRad]
  rw [h0]
  norm_num [atan2, Real.arctan_zero]

/-- Claim C8: `haversineDistance(p, p) = 0` for every point `p`, and the
distance is symmetric in its two points. -/
theorem haversineDistance_self_and_comm :
    (∀ lat lng : ℝ, haversineDistance lat lng lat lng = 0) ∧
    (∀ a b c d : ℝ, haversineDistance a b c d = haversineDistance c d a b) :=
  ⟨haversineDistance_self_aux, haversineDistance_comm_aux⟩

/-! ## Radius search -/

/-- Claim C6: `findNearbyFIRs` returns exactly the input records whose
haversine distance to the centre is at most the radius; the boundary
(distance exactly equal to the radius) is included. -/
theorem findNearbyFIRs_mem_iff (firs : List FIR)
    (centerLat centerLng radiusKm : ℝ) (fir : FIR) :
    fir ∈ findNearbyFIRs firs centerLat centerLng radiusKm ↔
      fir ∈ firs ∧
        haversineDistance centerLat centerLng
          (fir.latitude : ℝ) (fir.longitude : ℝ) ≤ radiusKm := by
  simp [findNearbyFIRs]

/-- Claim C10: `findNearbyFIRs` returns an order-preserving subsequence of its
input: each returned record occurs in the input, no input occurrence is used
twice, and relative order is preserved. -/
theorem findNearbyFIRs_sublist (firs : List FIR)
    (centerLat centerLng radiusKm : ℝ) :
    (findNearbyFIRs firs centerLat centerLng radiusKm).Sublist firs :=
  List.filter_sublist firs

/-! ## Empty-input behaviour -/

/-- Claim C9: Empty-in, empty/default-out: no core operation errors on the
empty record set — `detectHotspots` returns `[]`, `clusterFIRs` returns `[]`,
`calculateBounds` returns the configured default region, `getCenter` returns
the absent value. -/
theorem empty_input_defaults (config : GridConfig) (now : JSDate)
    (radiusKm : ℝ) :
    detectHotspots [] config now = [] ∧
    clusterFIRs [] radiusKm = [] ∧
    calculateBounds [] =
      { minLat := DEFAULT_GRID_CONFIG.minLat
        maxLat := DEFAULT_GRID_CONFIG.maxLat
        minLng := DEFAULT_GRID_CONFIG.minLng
        maxLng := DEFAULT_GRID_CONFIG.maxLng } ∧
    getCenter [] = none := by
  refine ⟨by simp [detectHotspots], ?_, rfl, rfl⟩
  simp [clusterFIRs]

/-! ## Accounting of grid assignment -/

theorem inCell_update (cell : GridCell) (l : List FIR) (n : Nat) (f : FIR) :
    inCell { cell with firs := l, firCount := n } f = inCell cell f := rfl

/-- Function `assignFIR` never changes any cell's bounds, so containment tests are
unaffected by it. -/
theorem assignFIR_any (grid : List GridCell) (f f' : FIR) :
    (assignFIR grid f).any (fun c => inCell c f')
      = grid.any (fun c => inCell c f') := by
  induction grid with
  | nil => rfl
  | cons c rest ih =>
    by_cases h : inCell c f
    · simp [assignFIR, h, inCell_update]
    · simp [assignFIR, h, ih]

/-- Assigning one record raises the total cell count by one exactly when some
cell contains it (first-match, so never by more than one). -/
theorem sum_firCount_assignFIR (grid : List GridCell) (f : FIR) :
    ((assignFIR grid f).map GridCell.firCount).sum
      = (grid.map GridCell.firCount).sum
        + (if grid.any (fun c => inCell c f) then 1 else 0) := by
  induction grid with
  | nil => simp [assignFIR]
  | cons c rest ih =>
    by_cases h : inCell c f
    · simp [assignFIR, h]
      omega
    · simp [assignFIR, h, ih]
      rw [Nat.add_assoc]

/-- Accounting over the whole assignment pass: the total cell count grows by
the number of records contained in at least one cell. -/
theorem sum_firCount_assignFIRsToGrid (firs : List FIR) (grid : List GridCell) :
    ((assignFIRsToGrid firs grid).map GridCell.firCount).sum
      = (grid.map GridCell.firCount).sum
        + firs.countP (fun f => grid.any (fun c => inCell c f)) := by
  induction firs generalizing grid with
  | nil => simp [assignFIRsToGrid]
  | cons f t ih =>
    rw [assignFIRsToGrid, List.foldl_cons, ← assignFIRsToGrid,
      ih (assignFIR grid f), sum_firCount_assignFIR]
    have hc : t.countP (fun x => (assignFIR grid f).any (fun c => inCell c x))
        = t.countP (fun x => grid.any (fun c => inCell c x)) := by
      apply List.countP_congr
      intro x _
      rw [assignFIR_any]
    rw [hc, List.countP_cons]
    by_cases h : grid.any (fun c => inCell c f)
    · simp [h]
      try omega
    · simp [h]
      try omega

theorem firCount_mem_createGrid (config : GridConfig) :
    ∀ c ∈ createGrid config, c.firCount = 0 := by
  intro c hc
  simp only [createGrid, List.mem_flatMap, List.mem_map] at hc
  obtain ⟨i, -, j, -, rfl⟩ := hc
  rfl

theorem sum_firCount_createGrid (config : GridConfig) :
    ((createGrid config).map GridCell.firCount).sum = 0 := by
  apply List.sum_eq_zero
  intro x hx
  simp only [List.mem_map] at hx
  obtain ⟨c, hc, rfl⟩ := hx
  exact firCount_mem_createGrid config c hc

/-- Dropping the empty cells does not change the total count. -/
theorem sum_firCount_filter_pos (l : List GridCell) :
    (((l.filter fun c => decide (0 < c.firCount)).map GridCell.firCount)).sum
      = (l.map GridCell.firCount).sum := by
  induction l with
  | nil => rfl
  | cons c rest ih =>
    by_cases h : 0 < c.firCount
    · simp [List.filter_cons, h, ih]
    · simp [List.filter_cons, h, ih]
      omega

/-- Sorting never changes a sum of mapped values. -/
theorem sum_map_mergeSort {α β : Type} [AddCommMonoid β] (le : α → α → Bool)
    (g : α → β) (l : List α) :
    ((l.mergeSort le).map g).sum = (l.map g).sum :=
  ((List.mergeSort_perm l le).map g).sum_eq

/-- Claim C1, amended: The sum of `firCount` over the hotspots equals the
number of input records contained in some generated grid cell; because the
generated rows and columns can overshoot the configured maxima (the loop runs
while `lat < maxLat` and each cell extends a full `latGridSize` past its
lower edge), the covered area is `[min, min + ⌈range/size⌉·size)` per axis,
which coincides with the configured bounding region only when the cell size
divides the range exactly. -/
theorem detectHotspots_firCount_sum (firs : List FIR) (config : GridConfig)
    (now : JSDate) (hlat : 0 < config.latGridSize)
    (hlng : 0 < config.lngGridSize) :
    ((detectHotspots firs config now).map Hotspot.firCount).sum
      = firs.countP (fun f => (createGrid config).any (fun c => inCell c f)) := by
  by_cases h : firs.length = 0
  · rw [List.length_eq_zero] at h
    subst h
    simp [detectHotspots]
  · rw [detectHotspots, if_neg h, sum_map_mergeSort, hotspotsUnsorted,
      List.map_map]
    have hcomp : (Hotspot.firCount ∘ toHotspot firs.length now)
        = GridCell.firCount := rfl
    rw [hcomp, sum_firCount_filter_pos, sum_firCount_assignFIRsToGrid,
      sum_firCount_createGrid]
    omega

/-! ## Concrete fixtures for witnesses and counterexamples -/

/-- A fixed timestamp. -/
def d0 : JSDate := ⟨0, 0, 0⟩

/-- A different fixed timestamp (later wall clock). -/
def d1 : JSDate := ⟨1, 0, 0⟩

/-- A record fixture at the given coordinates, other fields as in the
repository's test data. -/
def mkFIRat (i : String) (lat lng : ℚ) : FIR :=
  { id := i
    crimeType := "Theft"
    date := d0
    time := "14:30"
    latitude := lat
    longitude := lng
    area := "Downtown"
    zone := "Zone A"
    policeStation := "Central PS"
    description := none
    isAccident := false
    isSensitiveZone := false }

/-- A one-cell grid configuration: unit cell over `[0,1) × [0,1)`. -/
def cfgUnit : GridConfig := ⟨1, 1, 0, 1, 0, 1⟩

/-- A configuration whose cell size `0.6` does not divide the range `1`,
so the generated rows/columns overshoot the configured maxima. -/
def cfg06 : GridConfig := ⟨3/5, 3/5, 0, 1, 0, 1⟩

/-- A record in the middle of the unit region. -/
def fMid : FIR := mkFIRat "FIR001" (1/2) (1/2)

/-- A record at latitude `1.05`, outside the configured `[0,1]` region of
`cfg06` but inside its overshooting second row of cells. -/
def f105 : FIR := mkFIRat "FIR001" (21/20) (1/2)

/-- A record whose latitude equals the configured maximum latitude of
`cfgUnit` and whose longitude is strictly inside the region. -/
def fEdge : FIR := mkFIRat "FIR001" 1 (1/2)

/-- The spec's words (§4.2/§8): the configured bounding region, read with
the outer edge inclusive of the configured maxima as §4.2 describes.  This
definition follows the specification text, for comparison against the code's
behaviour; the code itself has no such predicate. -/
def inConfiguredRegion (config : GridConfig) (fir : FIR) : Bool :=
  decide (config.minLat ≤ fir.latitude) &&
  decide (fir.latitude ≤ config.maxLat) &&
  decide (config.minLng ≤ fir.longitude) &&
  decide (fir.longitude ≤ config.maxLng)

/-- Claim C1, witness: The amended sum identity, instantiated at the unit
configuration and a single mid-region record. -/
theorem detectHotspots_firCount_sum_witness :
    ((0:ℚ) < cfgUnit.latGridSize ∧ (0:ℚ) < cfgUnit.lngGridSize) ∧
    ((detectHotspots [fMid] cfgUnit d0).map Hotspot.firCount).sum
      = [fMid].countP (fun f => (createGrid cfgUnit).any (fun c => inCell c f)) :=
  ⟨⟨by norm_num [cfgUnit], by norm_num [cfgUnit]⟩,
    detectHotspots_firCount_sum [fMid] cfgUnit d0 (by norm_num [cfgUnit])
      (by norm_num [cfgUnit])⟩

unseal Rat.mul Rat.inv Rat.add Rat.sub in
/-- Claim C1, counterexample: With cell size `0.6` on the range `[0,1]`, the
record at latitude `1.05` lies outside the configured bounding region yet is
assigned to the overshooting second row, so the hotspot counts sum to `1`
while the configured region contains `0` records: the sum does not equal the
number of records inside the configured bounding region. -/
theorem detectHotspots_sum_vs_region_cex :
    ((detectHotspots [f105] cfg06 d0).map Hotspot.firCount).sum = 1 ∧
    inConfiguredRegion cfg06 f105 = false := by
  constructor
  · have hne : ¬([f105] : List FIR).length = 0 := by simp
    rw [detectHotspots, if_neg hne, sum_map_mergeSort, hotspotsUnsorted,
      List.map_map]
    rw [show (Hotspot.firCount ∘ toHotspot ([f105] : List FIR).length d0)
        = GridCell.firCount from rfl]
    decide
  · decide

/-! ## Coverage of the generated grid -/

/-- A point lies in one of `n` consecutive half-open steps of width `s`
starting at `a` exactly when it lies in the half-open union
`[a, a + n·s)`. -/
theorem exists_step_interval (s : ℚ) (hs : 0 < s) (a x : ℚ) (n : ℕ) :
    (∃ i : ℕ, i < n ∧ a + i * s ≤ x ∧ x < a + i * s + s) ↔
      a ≤ x ∧ x < a + n * s := by
  constructor
  · rintro ⟨i, hin, h1, h2⟩
    have hi0 : (0:ℚ) ≤ (i:ℚ) * s := mul_nonneg (by positivity) hs.le
    have hi1 : ((i:ℚ) + 1) * s ≤ (n:ℚ) * s := by
      have : ((i:ℚ) + 1) ≤ (n:ℚ) := by exact_mod_cast hin
      exact mul_le_mul_of_nonneg_right this hs.le
    constructor
    · linarith
    · nlinarith
  · rintro ⟨h1, h2⟩
    have hk0 : (0:ℤ) ≤ ⌊(x - a) / s⌋ :=
      Int.floor_nonneg.mpr (div_nonneg (sub_nonneg.mpr h1) hs.le)
    have hkn : ⌊(x - a) / s⌋ < (n:ℤ) := by
      rw [Int.floor_lt]
      rw [div_lt_iff hs]
      push_cast
      linarith
    refine ⟨(⌊(x - a) / s⌋).toNat, by omega, ?_, ?_⟩
    · have hfl : ((⌊(x - a) / s⌋ : ℤ) : ℚ) ≤ (x - a) / s := Int.floor_le _
      rw [le_div_iff hs] at hfl
      have hcast : (((⌊(x - a) / s⌋).toNat : ℕ) : ℚ) = ((⌊(x - a) / s⌋ : ℤ) : ℚ) := by
        exact_mod_cast congrArg (fun z : ℤ => (z : ℚ)) (Int.toNat_of_nonneg hk0)
      rw [hcast]
      linarith
    · have hfl : (x - a) / s < (⌊(x - a) / s⌋ : ℚ) + 1 := Int.lt_floor_add_one _
      rw [div_lt_iff hs] at hfl
      have hcast : (((⌊(x - a) / s⌋).toNat : ℕ) : ℚ) = ((⌊(x - a) / s⌋ : ℤ) : ℚ) := by
        exact_mod_cast congrArg (fun z : ℤ => (z : ℚ)) (Int.toNat_of_nonneg hk0)
      rw [hcast]
      nlinarith

theorem mem_createGrid_iff (config : GridConfig) (c : GridCell) :
    c ∈ createGrid config ↔
      ∃ i, i < latSteps config ∧ ∃ j, j < lngSteps config ∧
        c = mkCell config i j (i * lngSteps config + j) := by
  simp only [createGrid, List.mem_flatMap, List.mem_map, List.mem_range]
  constructor
  · rintro ⟨i, hi, j, hj, rfl⟩
    exact ⟨i, hi, j, hj, rfl⟩
  · rintro ⟨i, hi, j, hj, rfl⟩
    exact ⟨i, hi, j, hj, rfl⟩

theorem inCell_mkCell (config : GridConfig) (i j k : Nat) (f : FIR) :
    inCell (mkCell config i j k) f = true ↔
      ((config.minLat + i * config.latGridSize ≤ f.latitude ∧
        f.latitude < config.minLat + i * config.latGridSize + config.latGridSize) ∧
       (config.minLng + j * config.lngGridSize ≤ f.longitude ∧
        f.longitude < config.minLng + j * config.lngGridSize + config.lngGridSize)) := by
  simp only [inCell, mkCell, Bool.and_eq_true, decide_eq_true_eq]
  tauto

/-- Claim C4, amended: every generated cell, the outermost included, has
half-open bounds `[min, max)` on each axis, and a record is assigned to some
cell exactly when each coordinate lies in the half-open covered span
`[min, min + steps·size)` where `steps = ⌈range/size⌉`.  The covered span
ends strictly at `min + steps·size`, so a record whose latitude equals the
configured maximum is kept only when the generated rows overshoot the
maximum (cell size not dividing the range); when the cell size divides the
range exactly the covered span is `[min, max)` and that record is dropped. -/
theorem grid_halfOpen_coverage (config : GridConfig) (f : FIR)
    (hlat : 0 < config.latGridSize) (hlng : 0 < config.lngGridSize) :
    (∀ c ∈ createGrid config,
      (inCell c f = true ↔
        (c.minLat ≤ f.latitude ∧ f.latitude < c.maxLat ∧
         c.minLng ≤ f.longitude ∧ f.longitude < c.maxLng))) ∧
    ((createGrid config).any (fun c => inCell c f) = true ↔
      ((config.minLat ≤ f.latitude ∧
        f.latitude < config.minLat + latSteps config * config.latGridSize) ∧
       (config.minLng ≤ f.longitude ∧
        f.longitude < config.minLng + lngSteps config * config.lngGridSize))) := by
  constructor
  · intro c _
    simp only [inCell, Bool.and_eq_true, decide_eq_true_eq]
    tauto
  · rw [List.any_eq_true]
    constructor
    · rintro ⟨c, hc, hin⟩
      rw [mem_createGrid_iff] at hc
      obtain ⟨i, hi, j, hj, rfl⟩ := hc
      rw [inCell_mkCell] at hin
      obtain ⟨hlatb, hlngb⟩ := hin
      constructor
      · exact (exists_step_interval config.latGridSize hlat config.minLat
          f.latitude (latSteps config)).mp ⟨i, hi, hlatb.1, hlatb.2⟩
      · exact (exists_step_interval config.lngGridSize hlng config.minLng
          f.longitude (lngSteps config)).mp ⟨j, hj, hlngb.1, hlngb.2⟩
    · rintro ⟨hlatb, hlngb⟩
      obtain ⟨i, hi, hi1, hi2⟩ := (exists_step_interval config.latGridSize hlat
        config.minLat f.latitude (latSteps config)).mpr hlatb
      obtain ⟨j, hj, hj1, hj2⟩ := (exists_step_interval config.lngGridSize hlng
        config.minLng f.longitude (lngSteps config)).mpr hlngb
      refine ⟨mkCell config i j (i * lngSteps config + j), ?_, ?_⟩
      · rw [mem_createGrid_iff]
        exact ⟨i, hi, j, hj, rfl⟩
      · rw [inCell_mkCell]
        exact ⟨⟨hi1, hi2⟩, ⟨hj1, hj2⟩⟩

/-- Claim C4, witness: the amended characterization instantiated at the unit
configuration and the mid-region record (which the single cell contains). -/
theorem grid_halfOpen_coverage_witness :
    ((0:ℚ) < cfgUnit.latGridSize ∧ (0:ℚ) < cfgUnit.lngGridSize) ∧
    ((∀ c ∈ createGrid cfgUnit,
      (inCell c fMid = true ↔
        (c.minLat ≤ fMid.latitude ∧ fMid.latitude < c.maxLat ∧
         c.minLng ≤ fMid.longitude ∧ fMid.longitude < c.maxLng))) ∧
    ((createGrid cfgUnit).any (fun c => inCell c fMid) = true ↔
      ((cfgUnit.minLat ≤ fMid.latitude ∧
        fMid.latitude < cfgUnit.minLat + latSteps cfgUnit * cfgUnit.latGridSize) ∧
       (cfgUnit.minLng ≤ fMid.longitude ∧
        fMid.longitude < cfgUnit.minLng + lngSteps cfgUnit * cfgUnit.lngGridSize)))) :=
  ⟨⟨by norm_num [cfgUnit], by norm_num [cfgUnit]⟩,
    grid_halfOpen_coverage cfgUnit fMid (by norm_num [cfgUnit])
      (by norm_num [cfgUnit])⟩

unseal Rat.mul Rat.inv Rat.add Rat.sub in
/-- Claim C4, counterexample: in the unit configuration (cell size `1` over
the range `[0,1]`, dividing it exactly) the record whose latitude equals the
configured maximum latitude `1` — longitude `0.5`, strictly inside — is
contained in no generated cell, and `detectHotspots` drops it, returning no
hotspot at all; it is not assigned to the outermost cell. -/
theorem grid_edge_record_dropped_cex :
    ((createGrid cfgUnit).any (fun c => inCell c fEdge)) = false ∧
    detectHotspots [fEdge] cfgUnit d0 = [] := by
  constructor
  · decide
  · rw [detectHotspots, if_neg (by simp)]
    have h : hotspotsUnsorted [fEdge] cfgUnit d0 = [] := by
      rw [hotspotsUnsorted]
      rw [show (assignFIRsToGrid [fEdge] (createGrid cfgUnit)).filter
          (fun cell => decide (0 < cell.firCount)) = [] from by decide]
      rfl
    rw [h, List.mergeSort_nil]

/-! ## Stability of the stable sort model -/

/-- Stability of `mergeSort`, in filtered form: the sublist of elements
satisfying `p` is untouched by sorting whenever `p`-elements are mutually
tied under the comparison. -/
theorem mergeSort_filter_stable {α : Type} (le : α → α → Bool)
    (htrans : ∀ a b c, le a b → le b c → le a c)
    (htotal : ∀ a b, le a b || le b a)
    (p : α → Bool) (hp : ∀ a b, p a → p b → le a b) (l : List α) :
    (l.mergeSort le).filter p = l.filter p := by
  have hself : (l.filter p).filter p = l.filter p := by
    rw [List.filter_eq_self]
    intro a ha
    exact List.of_mem_filter ha
  have hsub : List.Sublist (l.filter p) (l.mergeSort le) := by
    apply List.sublist_mergeSort htrans htotal
    · rw [List.pairwise_iff_forall_sublist]
      intro a b hab
      have ha : p a := List.of_mem_filter (hab.subset (by simp))
      have hb : p b := List.of_mem_filter (hab.subset (by simp))
      exact hp a b ha hb
    · exact List.filter_sublist l
  have h2 : List.Sublist (l.filter p) ((l.mergeSort le).filter p) := by
    have := hsub.filter p
    rwa [hself] at this
  have hperm : ((l.mergeSort le).filter p).Perm (l.filter p) :=
    (List.mergeSort_perm l le).filter p
  exact (h2.eq_of_length hperm.length_eq.symm).symm

/-- Pairwise facts about a filtered list transfer to guarded pairwise facts
about the original list (filtering preserves relative order). -/
theorem pairwise_of_filter_pairwise {α : Type} (l : List α) (p : α → Bool)
    (Q : α → α → Prop) (h : (l.filter p).Pairwise Q) :
    l.Pairwise (fun a b => p a → p b → Q a b) := by
  rw [List.pairwise_iff_forall_sublist] at h ⊢
  intro a b hab hpa hpb
  apply h
  have hf := hab.filter p
  simpa [List.filter_cons, hpa, hpb] using hf

theorem hotspotsUnsorted_nil (config : GridConfig) (now : JSDate) :
    hotspotsUnsorted [] config now = [] := by
  rw [hotspotsUnsorted]
  have h : (assignFIRsToGrid [] (createGrid config)).filter
      (fun cell => decide (0 < cell.firCount)) = [] := by
    rw [List.filter_eq_nil_iff]
    intro c hc
    have := firCount_mem_createGrid config c hc
    simp [this]
  rw [h]
  rfl

/-- Claim C5: the hotspot list is sorted non-increasing by `firCount`, and
hotspots of equal `firCount` keep their relative order from the unsorted
hotspot list — which lists the populated cells in the cells' row-major
generation order (the sort is stable). -/
theorem detectHotspots_sorted_stable (firs : List FIR) (config : GridConfig)
    (now : JSDate) :
    ((detectHotspots firs config now).Pairwise
      (fun a b => b.firCount ≤ a.firCount)) ∧
    (∀ k : Nat,
      (detectHotspots firs config now).filter (fun h => decide (h.firCount = k))
        = (hotspotsUnsorted firs config now).filter
            (fun h => decide (h.firCount = k))) := by
  by_cases h : firs.length = 0
  · rw [List.length_eq_zero] at h
    subst h
    rw [detectHotspots]
    simp [hotspotsUnsorted_nil]
  · rw [detectHotspots, if_neg h]
    constructor
    · have hs := @List.sorted_mergeSort Hotspot
        (fun a b : Hotspot => decide (b.firCount ≤ a.firCount))
        (fun a b c => by
          simp only [decide_eq_true_eq]
          omega)
        (fun a b => by
          simp only [Bool.or_eq_true, decide_eq_true_eq]
          omega)
        (hotspotsUnsorted firs config now)
      exact hs.imp (by simp)
    · intro k
      apply mergeSort_filter_stable
      · intro a b c
        simp only [decide_eq_true_eq]
        omega
      · intro a b
        simp only [Bool.or_eq_true, decide_eq_true_eq]
        omega
      · intro a b
        simp only [decide_eq_true_eq]
        omega

/-! ## Peak-hour selection -/

/-- The 24 hour buckets of `getPeakHours` before sorting, in hour order. -/
def hourBuckets (firs : List FIR) : List HourCount :=
  (List.range 24).map fun i => HourCount.mk i (hourCount firs i)

theorem getPeakHours_eq (firs : List FIR) :
    getPeakHours firs
      = (hourBuckets firs).mergeSort fun a b => decide (b.count ≤ a.count) :=
  rfl

theorem mem_hourBuckets (firs : List FIR) (x : HourCount) :
    x ∈ hourBuckets firs ↔ x.hour < 24 ∧ x = ⟨x.hour, hourCount firs x.hour⟩ := by
  simp only [hourBuckets, List.mem_map, List.mem_range]
  constructor
  · rintro ⟨i, hi, rfl⟩
    exact ⟨hi, rfl⟩
  · rintro ⟨hi, hx⟩
    exact ⟨x.hour, hi, hx.symm⟩

theorem hourBuckets_pairwise (firs : List FIR) :
    (hourBuckets firs).Pairwise fun a b => a.hour < b.hour := by
  apply List.Pairwise.map _ _ (List.pairwise_lt_range 24)
  intro a b hab
  exact hab

/-- Sortedness plus tie order of `getPeakHours`: descending by count, and
among equal counts ascending by hour (stability over the hour-ordered
buckets). -/
theorem getPeakHours_pairwise (firs : List FIR) :
    (getPeakHours firs).Pairwise fun a b =>
      b.count ≤ a.count ∧ (a.count = b.count → a.hour < b.hour) := by
  have htrans : ∀ a b c : HourCount,
      decide (b.count ≤ a.count) → decide (c.count ≤ b.count) →
        (decide (c.count ≤ a.count) : Bool) := by
    intro a b c
    simp only [decide_eq_true_eq]
    omega
  have htotal : ∀ a b : HourCount,
      (decide (b.count ≤ a.count) || decide (a.count ≤ b.count) : Bool) := by
    intro a b
    simp only [Bool.or_eq_true, decide_eq_true_eq]
    omega
  have hsorted : (getPeakHours firs).Pairwise fun a b => b.count ≤ a.count := by
    rw [getPeakHours_eq]
    exact (List.sorted_mergeSort htrans htotal (hourBuckets firs)).imp
      (by simp)
  have hstable : ∀ k : Nat,
      (getPeakHours firs).filter (fun x => decide (x.count = k))
        = (hourBuckets firs).filter (fun x => decide (x.count = k)) := by
    intro k
    rw [getPeakHours_eq]
    apply mergeSort_filter_stable _ htrans htotal
    intro a b
    simp only [decide_eq_true_eq]
    omega
  have htie : (getPeakHours firs).Pairwise fun a b =>
      a.count = b.count → a.hour < b.hour := by
    rw [List.pairwise_iff_forall_sublist]
    intro a b hab heq
    have hk := pairwise_of_filter_pairwise (getPeakHours firs)
      (fun x => decide (x.count = a.count)) (fun a b => a.hour < b.hour)
      (by
        rw [hstable a.count]
        exact (hourBuckets_pairwise firs).filter _)
    have := (List.pairwise_iff_forall_sublist.mp hk) hab
    exact this (by simp) (by simp [heq])
  exact hsorted.and htie

/-- Claim C7: the predicted peak hours are three pairwise-distinct hour
buckets of the 24-bucket histogram, and every non-selected hour has either a
strictly smaller count than each selected hour or an equal count and a larger
hour number (ties prefer the lower hour). -/
theorem predictedPeakHours_top3 (firs : List FIR) (now : JSDate) :
    (generateInsights firs now).predictedPeakHours.length = 3 ∧
    (generateInsights firs now).predictedPeakHours.Nodup ∧
    (∀ p ∈ (generateInsights firs now).predictedPeakHours, p < 24) ∧
    (∀ p ∈ (generateInsights firs now).predictedPeakHours, ∀ h : Nat, h < 24 →
      h ∉ (generateInsights firs now).predictedPeakHours →
        hourCount firs h < hourCount firs p ∨
          (hourCount firs h = hourCount firs p ∧ p < h)) := by
  have hpred : (generateInsights firs now).predictedPeakHours
      = ((getPeakHours firs).take 3).map (fun h => h.hour) := rfl
  have hlen24 : (getPeakHours firs).length = 24 := by
    rw [getPeakHours_eq, List.length_mergeSort, hourBuckets,
      List.length_map, List.length_range]
  have hmem_of_mem : ∀ x ∈ getPeakHours firs,
      x.hour < 24 ∧ x = ⟨x.hour, hourCount firs x.hour⟩ := by
    intro x hx
    rw [getPeakHours_eq, List.mem_mergeSort] at hx
    exact (mem_hourBuckets firs x).mp hx
  refine ⟨?_, ?_, ?_, ?_⟩
  · rw [hpred, List.length_map, List.length_take, hlen24]
    decide
  · rw [hpred, List.map_take]
    have hperm : ((getPeakHours firs).map (fun h => h.hour)).Perm
        ((hourBuckets firs).map (fun h => h.hour)) := by
      rw [getPeakHours_eq]
      exact (List.mergeSort_perm _ _).map _
    have hrange : (hourBuckets firs).map (fun h => h.hour) = List.range 24 := by
      rw [hourBuckets, List.map_map]
      exact List.map_id _
    have hnd : ((getPeakHours firs).map (fun h => h.hour)).Nodup :=
      (hrange ▸ hperm).nodup_iff.mpr (List.nodup_range 24)
    exact (List.take_sublist 3 _).nodup hnd
  · intro p hp
    rw [hpred] at hp
    obtain ⟨bp, hbp, rfl⟩ := List.mem_map.mp hp
    exact (hmem_of_mem bp ((List.take_sublist 3 _).subset hbp)).1
  · intro p hp h hh24 hnot
    rw [hpred] at hp hnot
    obtain ⟨bp, hbp, rfl⟩ := List.mem_map.mp hp
    have hbp_eq := (hmem_of_mem bp ((List.take_sublist 3 _).subset hbp)).2
    have hbh_mem : (⟨h, hourCount firs h⟩ : HourCount) ∈ getPeakHours firs := by
      rw [getPeakHours_eq, List.mem_mergeSort, mem_hourBuckets]
      exact ⟨hh24, rfl⟩
    have hsplit : getPeakHours firs
        = (getPeakHours firs).take 3 ++ (getPeakHours firs).drop 3 :=
      (List.take_append_drop 3 _).symm
    have hbh_drop : (⟨h, hourCount firs h⟩ : HourCount)
        ∈ (getPeakHours firs).drop 3 := by
      rcases List.mem_append.mp (hsplit ▸ hbh_mem) with hin | hin
      · exact absurd (List.mem_map.mpr ⟨_, hin, rfl⟩) hnot
      · exact hin
    have hpw := getPeakHours_pairwise firs
    rw [hsplit, List.pairwise_append] at hpw
    have hq := hpw.2.2 bp hbp _ hbh_drop
    have hcnt_p : bp.count = hourCount firs bp.hour := by
      conv_lhs => rw [hbp_eq]
    rcases Nat.lt_or_ge (hourCount firs h) (hourCount firs bp.hour) with hlt | hge
    · exact Or.inl hlt
    · right
      have hle : hourCount firs h ≤ hourCount firs bp.hour := by
        have := hq.1
        rwa [hcnt_p] at this
      have heq : hourCount firs h = hourCount firs bp.hour := by omega
      refine ⟨heq, ?_⟩
      have := hq.2 (by rw [hcnt_p, heq])
      exact this

/-! ## Clock dependence of the derived outputs -/

/-- All fields of a `Hotspot` except the generation timestamp
`lastUpdated`. -/
structure HotspotData where
  zoneId : String
  zoneName : String
  centerLat : ℚ
  centerLng : ℚ
  firCount : Nat
  severity : Severity
  percentage : ℚ
deriving DecidableEq, Repr

/-- Projection of a hotspot onto its timestamp-free fields. -/
def Hotspot.data (h : Hotspot) : HotspotData :=
  ⟨h.zoneId, h.zoneName, h.centerLat, h.centerLng, h.firCount, h.severity,
    h.percentage⟩

/-- All fields of a `CrimeInsight` except the generation timestamp
`generatedAt`. -/
structure InsightData where
  peakHours : List HourCount
  dayWiseTrends : List DayCount
  topCrimeTypes : List TypeCount
  monthlyTrends : List MonthCount
  areaStatistics : List AreaCount
  predictedPeakHours : List Nat
  highRiskDays : List DayCount
  totalFIRs : Nat
  totalHotspots : Nat
deriving DecidableEq, Repr

/-- Projection of an insight bundle onto its timestamp-free fields. -/
def CrimeInsight.data (c : CrimeInsight) : InsightData :=
  ⟨c.peakHours, c.dayWiseTrends, c.topCrimeTypes, c.monthlyTrends,
    c.areaStatistics, c.predictedPeakHours, c.highRiskDays, c.totalFIRs,
    c.totalHotspots⟩

unseal Rat.mul Rat.inv Rat.add Rat.sub in
theorem detectHotspots_map_lastUpdated (d : JSDate) :
    (detectHotspots [fMid] cfgUnit d).map Hotspot.lastUpdated = [d] := by
  have hlen : (hotspotsUnsorted [fMid] cfgUnit d).length = 1 := by
    rw [hotspotsUnsorted, List.length_map]
    decide
  obtain ⟨hs, hhs⟩ := List.length_eq_one.mp hlen
  have hlu : hs.lastUpdated = d := by
    have hmem : hs ∈ hotspotsUnsorted [fMid] cfgUnit d := by
      rw [hhs]
      simp
    rw [hotspotsUnsorted] at hmem
    obtain ⟨c, -, rfl⟩ := List.mem_map.mp hmem
    rfl
  rw [detectHotspots, if_neg (by simp), hhs, List.mergeSort_singleton]
  simp [hlu]

/-- Claim C3, counterexample: `detectHotspots` is not a pure function of its
record set and configuration — the same single-record input produces
different outputs at two different wall-clock instants, because the emitted
hotspot embeds the clock in `lastUpdated` (`new Date()`). -/
theorem detectHotspots_not_pure_cex :
    detectHotspots [fMid] cfgUnit d0 ≠ detectHotspots [fMid] cfgUnit d1 := by
  intro h
  have h0 := detectHotspots_map_lastUpdated d0
  have h1 := detectHotspots_map_lastUpdated d1
  rw [h, h1] at h0
  have : d1 = d0 := List.singleton_injective h0
  simp [d0, d1] at this

/-- Claim C3, amended: every core operation is a deterministic function of
its inputs plus the wall clock, and the clock influences only the generation
timestamp fields: erasing `lastUpdated` from hotspots and `generatedAt` from
the insight bundle makes the outputs of `detectHotspots` and
`generateInsights` identical across any two clock readings (ordering
included); the remaining operations take no clock at all, so their outputs
are functions of their inputs alone. -/
theorem core_ops_clock_invariant (firs : List FIR) (config : GridConfig)
    (now now' : JSDate) :
    (detectHotspots firs config now).map Hotspot.data
      = (detectHotspots firs config now').map Hotspot.data ∧
    (generateInsights firs now).data = (generateInsights firs now').data := by
  constructor
  · by_cases h : firs.length = 0
    · rw [detectHotspots, detectHotspots, if_pos h, if_pos h]
    · rw [detectHotspots, detectHotspots, if_neg h, if_neg h,
        @List.map_mergeSort Hotspot HotspotData
          (fun a b => decide (b.firCount ≤ a.firCount))
          (fun a b => decide (b.firCount ≤ a.firCount)) Hotspot.data _
          (fun a _ b _ => rfl),
        @List.map_mergeSort Hotspot HotspotData
          (fun a b => decide (b.firCount ≤ a.firCount))
          (fun a b => decide (b.firCount ≤ a.firCount)) Hotspot.data _
          (fun a _ b _ => rfl)]
      congr 1
      rw [hotspotsUnsorted, hotspotsUnsorted, List.map_map, List.map_map]
      rfl
  · rfl

/-! ## Clustering -/

theorem clusterFIRs_pair_dup :
    clusterFIRs [fMid, fMid] (1/2 : ℝ) = [[fMid]] := by
  have hdist : haversineDistance (fMid.latitude : ℝ) (fMid.longitude : ℝ)
      (fMid.latitude : ℝ) (fMid.longitude : ℝ) ≤ (1/2 : ℝ) := by
    rw [haversineDistance_self_aux]
    norm_num
  have hnear : findNearbyFIRs [fMid, fMid] (fMid.latitude : ℝ)
      (fMid.longitude : ℝ) (1/2) = [fMid, fMid] := by
    rw [findNearbyFIRs, List.filter_cons, List.filter_cons, List.filter_nil,
      decide_eq_true hdist]
    simp
  have h1 : clusterStep [fMid, fMid] (1/2) ⟨[], []⟩ fMid
      = ⟨[[fMid]], [fMid.id]⟩ := by
    simp only [clusterStep, List.not_mem_nil, if_false, hnear,
      List.foldl_cons, List.foldl_nil, List.nil_append]
    simp
  have h2 : clusterStep [fMid, fMid] (1/2) ⟨[[fMid]], [fMid.id]⟩ fMid
      = ⟨[[fMid]], [fMid.id]⟩ := by
    simp only [clusterStep]
    rw [if_pos (by simp)]
  rw [clusterFIRs, List.foldl_cons, List.foldl_cons, List.foldl_nil, h1, h2,
    List.mergeSort_singleton]

/-- Claim C2, counterexample: on an input with a duplicated record (same
identifier twice — the core does not enforce identifier uniqueness), the
second occurrence is skipped through the id-keyed visited set and lands in no
cluster: the cluster sizes sum to `1`, not to the input size `2`, so the
clusters do not partition the input. -/
theorem clusterFIRs_not_partition_cex :
    ((clusterFIRs [fMid, fMid] (1/2 : ℝ)).map List.length).sum = 1 ∧
    ([fMid, fMid] : List FIR).length = 2 := by
  rw [clusterFIRs_pair_dup]
  exact ⟨rfl, rfl⟩

/-- The invariant maintained by the clustering fold: the visited set holds
exactly the ids of the records already put into clusters (in placement
order), all clustered records come from the input, and no id is visited
twice. -/
structure ClusterInv (firs : List FIR) (st : ClusterState) : Prop where
  ids_eq : st.clusters.flatten.map FIR.id = st.visited
  mem : ∀ x ∈ st.clusters.flatten, x ∈ firs
  nodup : st.visited.Nodup

/-- The inner fold of `clusterStep` (adding unvisited nearby records) keeps
the cluster and the visited set in lockstep, visits each id at most once,
only grows the visited set, and never empties the cluster. -/
theorem cluster_inner_fold (firs : List FIR) (base : List String)
    (nearby : List FIR) (hnear : ∀ x ∈ nearby, x ∈ firs) :
    ∀ (c0 : List FIR) (v0 : List String),
      v0 = base ++ c0.map FIR.id → (∀ x ∈ c0, x ∈ firs) → v0.Nodup →
      c0 ≠ [] →
      ((nearby.foldl
          (fun (acc : List FIR × List String) nearFir =>
            if nearFir.id ∈ acc.2 then acc
            else (acc.1 ++ [nearFir], acc.2 ++ [nearFir.id]))
          (c0, v0)).2
        = base ++ (nearby.foldl
          (fun (acc : List FIR × List String) nearFir =>
            if nearFir.id ∈ acc.2 then acc
            else (acc.1 ++ [nearFir], acc.2 ++ [nearFir.id]))
          (c0, v0)).1.map FIR.id ∧
      (∀ x ∈ (nearby.foldl
          (fun (acc : List FIR × List String) nearFir =>
            if nearFir.id ∈ acc.2 then acc
            else (acc.1 ++ [nearFir], acc.2 ++ [nearFir.id]))
          (c0, v0)).1, x ∈ firs) ∧
      (nearby.foldl
          (fun (acc : List FIR × List String) nearFir =>
            if nearFir.id ∈ acc.2 then acc
            else (acc.1 ++ [nearFir], acc.2 ++ [nearFir.id]))
          (c0, v0)).2.Nodup ∧
      v0 ⊆ (nearby.foldl
          (fun (acc : List FIR × List String) nearFir =>
            if nearFir.id ∈ acc.2 then acc
            else (acc.1 ++ [nearFir], acc.2 ++ [nearFir.id]))
          (c0, v0)).2 ∧
      (nearby.foldl
          (fun (acc : List FIR × List String) nearFir =>
            if nearFir.id ∈ acc.2 then acc
            else (acc.1 ++ [nearFir], acc.2 ++ [nearFir.id]))
          (c0, v0)).1 ≠ []) := by
  induction nearby with
  | nil =>
    intro c0 v0 hv hc hnd hne
    exact ⟨hv, hc, hnd, fun a ha => ha, hne⟩
  | cons nf rest ih =>
    intro c0 v0 hv hc hnd hne
    have hnear' : ∀ x ∈ rest, x ∈ firs := fun x hx => hnear x (by simp [hx])
    rw [List.foldl_cons]
    by_cases h : nf.id ∈ v0
    · rw [if_pos h]
      exact ih hnear' c0 v0 hv hc hnd hne
    · rw [if_neg h]
      have hv1 : v0 ++ [nf.id] = base ++ (c0 ++ [nf]).map FIR.id := by
        rw [List.map_append, hv, List.append_assoc]
        simp
      have hc1 : ∀ x ∈ c0 ++ [nf], x ∈ firs := by
        intro x hx
        rcases List.mem_append.mp hx with hx | hx
        · exact hc x hx
        · rw [List.mem_singleton.mp hx]
          exact hnear nf (by simp)
      have hnd1 : (v0 ++ [nf.id]).Nodup := by
        rw [List.nodup_append]
        exact ⟨hnd, List.nodup_singleton _,
          fun a ha hb => h (by rwa [List.mem_singleton.mp hb] at ha)⟩
      have := ih hnear' (c0 ++ [nf]) (v0 ++ [nf.id]) hv1 hc1 hnd1 (by simp)
      refine ⟨this.1, this.2.1, this.2.2.1, ?_, this.2.2.2.2⟩
      exact fun a ha => this.2.2.2.1 (by simp [ha])

/-- One outer clustering step preserves the invariant, only grows the
visited set, and leaves the seed's id visited. -/
theorem clusterStep_invariant (firs : List FIR) (radiusKm : ℝ)
    (st : ClusterState) (f : FIR) (hf : f ∈ firs)
    (hinv : ClusterInv firs st) :
    ClusterInv firs (clusterStep firs radiusKm st f) ∧
    st.visited ⊆ (clusterStep firs radiusKm st f).visited ∧
    f.id ∈ (clusterStep firs radiusKm st f).visited := by
  by_cases h : f.id ∈ st.visited
  · rw [clusterStep, if_pos h]
    exact ⟨hinv, fun a ha => ha, h⟩
  · have hnear : ∀ x ∈ findNearbyFIRs firs (f.latitude : ℝ)
        (f.longitude : ℝ) radiusKm, x ∈ firs :=
      fun x hx => (List.mem_filter.mp hx).1
    have hv0 : st.visited ++ [f.id] = st.visited ++ ([f] : List FIR).map FIR.id := by
      simp
    have hfold := cluster_inner_fold firs st.visited
      (findNearbyFIRs firs (f.latitude : ℝ) (f.longitude : ℝ) radiusKm) hnear
      [f] (st.visited ++ [f.id]) hv0
      (by
        intro x hx
        rw [List.mem_singleton.mp hx]
        exact hf)
      (by
        rw [List.nodup_append]
        exact ⟨hinv.nodup, List.nodup_singleton _,
          fun a ha hb => h (by rwa [List.mem_singleton.mp hb] at ha)⟩)
      (by simp)
    obtain ⟨hids, hmem, hnd, hgrow, hne⟩ := hfold
    rw [clusterStep, if_neg h, if_pos (List.length_pos.mpr hne)]
    refine ⟨⟨?_, ?_, hnd⟩, ?_, ?_⟩
    · rw [List.flatten_append, List.flatten_cons, List.flatten_nil,
        List.append_nil, List.map_append, hinv.ids_eq, ← hids]
    · intro x hx
      rw [List.flatten_append, List.flatten_cons, List.flatten_nil,
        List.append_nil] at hx
      rcases List.mem_append.mp hx with hx | hx
      · exact hinv.mem x hx
      · exact hmem x hx
    · exact fun a ha => hgrow (by simp [ha])
    · exact hgrow (by simp)

/-- Folding the clustering step over any sublist of the input preserves the
invariant, grows the visited set, and visits every processed record's id. -/
theorem clusterFold_invariant (firs : List FIR) (radiusKm : ℝ) :
    ∀ (l : List FIR) (st : ClusterState), (∀ x ∈ l, x ∈ firs) →
      ClusterInv firs st →
      ClusterInv firs (l.foldl (clusterStep firs radiusKm) st) ∧
      st.visited ⊆ (l.foldl (clusterStep firs radiusKm) st).visited ∧
      ∀ f ∈ l, f.id ∈ (l.foldl (clusterStep firs radiusKm) st).visited := by
  intro l
  induction l with
  | nil =>
    intro st _ hinv
    exact ⟨hinv, fun a ha => ha, by simp⟩
  | cons f t ih =>
    intro st hl hinv
    rw [List.foldl_cons]
    have hstep := clusterStep_invariant firs radiusKm st f (hl f (by simp)) hinv
    have hrest := ih (clusterStep firs radiusKm st f)
      (fun x hx => hl x (by simp [hx])) hstep.1
    refine ⟨hrest.1, hstep.2.1.trans hrest.2.1, ?_⟩
    intro g hg
    rcases List.mem_cons.mp hg with rfl | hg
    · exact hrest.2.1 hstep.2.2
    · exact hrest.2.2 g hg

/-- Claim C2, amended: when the record identifiers are pairwise distinct
(identifier uniqueness is expected of the input but not enforced by the
core), the clusters returned by `clusterFIRs` partition the input — their
concatenation is a permutation of the record set, so every record appears in
exactly one cluster and the cluster sizes sum to the input size.  With a
duplicated identifier the later occurrence is skipped and belongs to no
cluster. -/
theorem clusterFIRs_partition (firs : List FIR) (radiusKm : ℝ)
    (h : (firs.map FIR.id).Nodup) :
    (clusterFIRs firs radiusKm).flatten.Perm firs ∧
    ((clusterFIRs firs radiusKm).map List.length).sum = firs.length := by
  have h0 : ClusterInv firs ⟨[], []⟩ := ⟨rfl, by simp, List.nodup_nil⟩
  obtain ⟨hinv, -, hall⟩ := clusterFold_invariant firs radiusKm firs
    ⟨[], []⟩ (fun x hx => hx) h0
  have hperm0 : (clusterFIRs firs radiusKm).flatten.Perm
      (firs.foldl (clusterStep firs radiusKm) ⟨[], []⟩).clusters.flatten := by
    rw [clusterFIRs]
    exact (List.mergeSort_perm _ _).flatten
  have hjoin_nodup :
      (firs.foldl (clusterStep firs radiusKm) ⟨[], []⟩).clusters.flatten.Nodup := by
    have hmap := hinv.ids_eq ▸ hinv.nodup
    exact hmap.of_map
  have hfirs_nodup : firs.Nodup := h.of_map
  have hforward : ∀ x ∈ firs,
      x ∈ (firs.foldl (clusterStep firs radiusKm) ⟨[], []⟩).clusters.flatten := by
    intro x hx
    have hid : x.id ∈ (firs.foldl (clusterStep firs radiusKm) ⟨[], []⟩).visited :=
      hall x hx
    rw [← hinv.ids_eq] at hid
    obtain ⟨y, hy, hyx⟩ := List.mem_map.mp hid
    have hxy : y = x := List.inj_on_of_nodup_map h (hinv.mem y hy) hx hyx
    exact hxy ▸ hy
  have hperm1 :
      (firs.foldl (clusterStep firs radiusKm) ⟨[], []⟩).clusters.flatten.Perm
        firs :=
    (List.perm_ext_iff_of_nodup hjoin_nodup hfirs_nodup).mpr
      (fun a => ⟨fun ha => hinv.mem a ha, fun ha => hforward a ha⟩)
  have hperm := hperm0.trans hperm1
  refine ⟨hperm, ?_⟩
  rw [← List.length_flatten]
  exact hperm.length_eq

/-- Claim C2, witness: the partition property at a singleton record set. -/
theorem clusterFIRs_partition_witness :
    (([fMid] : List FIR).map FIR.id).Nodup ∧
    ((clusterFIRs [fMid] (1/2 : ℝ)).flatten.Perm [fMid] ∧
     ((clusterFIRs [fMid] (1/2 : ℝ)).map List.length).sum
        = ([fMid] : List FIR).length) :=
  ⟨by simp, clusterFIRs_partition [fMid] (1/2) (by simp)⟩

/-- Claim C7, witness: the top-3 selection property instantiated at the
empty record set and a fixed clock. -/
theorem predictedPeakHours_top3_witness :
    (generateInsights [] d0).predictedPeakHours.length = 3 ∧
    (generateInsights [] d0).predictedPeakHours.Nodup ∧
    (∀ p ∈ (generateInsights [] d0).predictedPeakHours, p < 24) ∧
    (∀ p ∈ (generateInsights [] d0).predictedPeakHours, ∀ h : Nat, h < 24 →
      h ∉ (generateInsights [] d0).predictedPeakHours →
        hourCount [] h < hourCount [] p ∨
          (hourCount [] h = hourCount [] p ∧ p < h)) :=
  predictedPeakHours_top3 [] d0

end SafeCity
